import Mathlib

/-!
# Verification of the PPO learner (`src/ppo_alogrithm.py`)

A shallow embedding, over `ℚ`, of the pure / state-passing content of the
`PPOLearner` class and the parts of its collaborators that the verified
properties depend on.  Python floats are modelled as rationals, Python
lists as `List`, and the mutable attributes of the learner as explicit
record states threaded through the functions that mutate them.  Object
identity (relevant for the best-policy snapshot) is modelled by a small
heap: a list of allocated parameter objects together with indices for the
live policy and the best-policy snapshot.
-/

namespace PPO

/-- The additive epsilon constant `TOL = 1e-10` of `ppo_alogrithm.py`. -/
def TOL : ℚ := 1 / 10000000000

/-- The mean `np.mean` over a list of rationals: sum divided by length
(`0` for the empty list, which never occurs in the verified runs). -/
def npMean (xs : List ℚ) : ℚ := xs.sum / xs.length

/-! ## Hyperparameter scheduler (`PPOLearner.update_hyperparameters`) -/

/-- The mutable hyperparameter attributes of `PPOLearner` read or written by
`update_hyperparameters` (source lines 288-294), together with the fixed
decay configuration set in `__init__`. -/
structure Hyper where
  entropyCoefficient : ℚ
  entropyDecay : ℚ
  reversionThreshold : ℚ
  reversionThresholdDecay : ℚ
  minReversionThreshold : ℚ
deriving DecidableEq

/-- The method `PPOLearner.update_hyperparameters` (source lines 288-294):
`entropy_coefficient = entropy_decay * entropy_coefficient` and
`reversion_threshold = max(reversion_threshold_decay * reversion_threshold_decay,
min_reversion_threshold)`.  Note that the first argument of `max` is the
decay factor multiplied by itself; the current threshold does not appear. -/
def updateHyperparameters (h : Hyper) : Hyper :=
  { h with
    entropyCoefficient := h.entropyDecay * h.entropyCoefficient
    reversionThreshold :=
      max (h.reversionThresholdDecay * h.reversionThresholdDecay)
        h.minReversionThreshold }

/-- A hyperparameter state with the constructor defaults of `PPOLearner`:
decay `0.99`, threshold `0.2`, floor `0.1`, entropy coefficient `0.1` with
decay `0.999`. -/
def defaultHyper : Hyper :=
  { entropyCoefficient := 1 / 10
    entropyDecay := 999 / 1000
    reversionThreshold := 1 / 5
    reversionThresholdDecay := 99 / 100
    minReversionThreshold := 1 / 10 }

/-! ## Discounted returns (`PPOLearner.calculate_discounted_rewards`) -/

/-- The loop of `calculate_discounted_rewards` (source lines 158-160):
running `t` downward through `reversed(range(n))`, it updates
`discounted_reward = rewards[t] + discount * discounted_reward` and inserts
the new value at position `0` of the accumulated result list.  The second
argument is the running `discounted_reward`, the third the result list
built so far. -/
def discountedGo (γ : ℚ) (rewards : List ℚ) : ℕ → ℚ → List ℚ → List ℚ
  | 0, _, acc => acc
  | t + 1, d, acc =>
    let d' := rewards.getD t 0 + γ * d
    discountedGo γ rewards t d' (d' :: acc)

/-- The method `PPOLearner.calculate_discounted_rewards` (source lines
155-161), with
`n = n_steps_per_trajectory` and `γ = discount`: starts from
`discounted_reward = 0` and an empty result list. -/
def calculateDiscountedRewards (γ : ℚ) (n : ℕ) (rewards : List ℚ) : List ℚ :=
  discountedGo γ rewards n 0 []

/-! ## Trajectory generation (`PPOLearner.generate_trajectory`) and
batch aggregation (`PPOLearner.generate_batch`)

The environment is consumed through the contract of §6 of the design
notes, matching `BaseEnv` of `src/environment_models/base.py`: a mutable
initial-state attribute (`init`), an internal current state, a `reset`
that copies the initial state into the current state, and a `step` that
advances the current state and returns the new state and a reward.  The
transition function `stepF`, the policy's action sampling and the
bounding-box sampling are parameters; randomness is modelled by
threading an abstract generator state of type `R`. -/

/-- An environment: the configured initial state (`self.environment.init`)
and the current internal simulator state. -/
structure Env (S : Type) where
  init : S
  state : S

/-- One `environment.step(action)` call: the transition function reads the
internal state, the environment moves to the new state, and the new state
and the reward are returned (the `done` flag is ignored by the trajectory
loop, as in the source). -/
def envStep {S A : Type} (stepF : S → A → S × ℚ) (e : Env S) (a : A) :
    Env S × S × ℚ :=
  let p := stepF e.state a
  ({ e with state := p.1 }, p.1, p.2)

/-- One `environment.reset()` call: the current state is set back to the
configured initial state (`BaseEnv.reset`, base.py lines 34-35). -/
def envReset {S : Type} (e : Env S) : Env S :=
  { e with state := e.init }

/-- Result of the inner sampling loop of `generate_trajectory`. -/
structure LoopResult (S R : Type) where
  states : List S
  rewards : List ℚ
  env : Env S
  rng : R

/-- The sampling loop of `generate_trajectory` (source lines 179-190), run
for a given number of steps: sample an action from the policy at the
current `state` variable, step the environment, append the pre-transition
state and the reward, and continue from the returned new state. -/
def trajLoop {S A R : Type} (stepF : S → A → S × ℚ)
    (sampleAction : R → S → A × R) :
    ℕ → S → Env S → R → LoopResult S R
  | 0, _, e, rng => ⟨[], [], e, rng⟩
  | k + 1, s, e, rng =>
    let ar := sampleAction rng s
    let st := envStep stepF e ar.1
    let rest := trajLoop stepF sampleAction k st.2.1 st.1 ar.2
    ⟨s :: rest.states, st.2.2 :: rest.rewards, rest.env, rest.rng⟩

/-- Result of `generate_trajectory`: the environment and generator after
the call, and the returned `(states[:-1], rewards, discounted_rewards)`. -/
structure TrajResult (S R : Type) where
  env : Env S
  rng : R
  states : List S
  rewards : List ℚ
  discountedRewards : List ℚ

/-- The method `PPOLearner.generate_trajectory` (source lines 163-200):
save `init_state = environment.init`; if randomized initialization is
configured, sample a state from the box, write it into `environment.init`
and reset, otherwise start from `init_state`; run the loop for
`n_steps_per_trajectory + 1` steps; restore `environment.init` to
`init_state` and reset; compute discounted rewards over the horizon `H`;
return the states without the terminal one, all rewards, and the
discounted rewards. -/
def generateTrajectory {S A R : Type} (stepF : S → A → S × ℚ)
    (sampleAction : R → S → A × R) (sampleBox : R → S × R)
    (randomizeInitState : Bool) (H : ℕ) (γ : ℚ)
    (e : Env S) (rng : R) : TrajResult S R :=
  let initState := e.init
  let start : S × Env S × R :=
    if randomizeInitState then
      let br := sampleBox rng
      (br.1, envReset { e with init := br.1 }, br.2)
    else
      (initState, e, rng)
  let loop := trajLoop stepF sampleAction (H + 1) start.1 start.2.1 start.2.2
  let envFinal := envReset { loop.env with init := initState }
  let disc := calculateDiscountedRewards γ H loop.rewards
  ⟨envFinal, loop.rng, loop.states.dropLast, loop.rewards, disc⟩

/-- The trajectory list of `generate_batch` (source line 206): run
`generate_trajectory` once per trajectory, in order, threading the
environment and generator state through the calls. -/
def genTrajectories {S A R : Type} (stepF : S → A → S × ℚ)
    (sampleAction : R → S → A × R) (sampleBox : R → S × R)
    (randomizeInitState : Bool) (H : ℕ) (γ : ℚ) :
    ℕ → Env S → R → List (TrajResult S R) × Env S × R
  | 0, e, rng => ([], e, rng)
  | b + 1, e, rng =>
    let tr := generateTrajectory stepF sampleAction sampleBox
      randomizeInitState H γ e rng
    let rest := genTrajectories stepF sampleAction sampleBox
      randomizeInitState H γ b tr.env tr.rng
    (tr :: rest.1, rest.2)

/-- Modelled from the spec: `concatenate_lists` from `utils.misc` is
imported by `ppo_alogrithm.py` but its module is not in the repository
snapshot; per §4.3 of the spec it concatenates the per-trajectory lists
into a single ordered sequence, preserving trajectory order and
within-trajectory order. -/
def concatenate_lists {α : Type} (ls : List (List α)) : List α :=
  ls.flatten

/-- Result of `generate_batch`: the environment and generator after the
call and the concatenated states, rewards and discounted rewards. -/
structure BatchResult (S R : Type) where
  env : Env S
  rng : R
  states : List S
  rewards : List ℚ
  discountedRewards : List ℚ

/-- The method `PPOLearner.generate_batch` (source lines 202-210):
generate `B` trajectories and concatenate each component. -/
def generateBatch {S A R : Type} (stepF : S → A → S × ℚ)
    (sampleAction : R → S → A × R) (sampleBox : R → S × R)
    (randomizeInitState : Bool) (H : ℕ) (γ : ℚ) (B : ℕ)
    (e : Env S) (rng : R) : BatchResult S R :=
  let g := genTrajectories stepF sampleAction sampleBox
    randomizeInitState H γ B e rng
  ⟨g.2.1, g.2.2,
    concatenate_lists (g.1.map TrajResult.states),
    concatenate_lists (g.1.map TrajResult.rewards),
    concatenate_lists (g.1.map TrajResult.discountedRewards)⟩

/-! ## Performance tracking and policy reversion
(`PPOLearner._track_performance`)

Python object identity matters here: `self.policy = self.best_policy`
(source line 220) makes the two attributes reference the same object,
while `deepcopy` (lines 153 and 218) allocates an independent one.  The
model keeps a heap of allocated parameter objects (type `P`) and two
indices into it. -/

/-- The attributes of `PPOLearner` read or written by
`_track_performance`: the policy-object heap with the references held by
`self.policy` and `self.best_policy`, the reward history, the best mean
reward (`⊥` models the initial `-np.inf`), and the current reversion
threshold. -/
structure PerfState (P : Type) where
  heap : List P
  policyRef : ℕ
  bestRef : ℕ
  meanRewards : List ℚ
  bestMeanReward : WithBot ℚ
  reversionThreshold : ℚ

/-- The parameters of the object currently referenced by `self.policy`. -/
def readPolicy {P : Type} [Inhabited P] (s : PerfState P) : P :=
  s.heap.getD s.policyRef default

/-- The parameters of the object currently referenced by
`self.best_policy`. -/
def readBest {P : Type} [Inhabited P] (s : PerfState P) : P :=
  s.heap.getD s.bestRef default

/-- The performance-tracking initialization of `PPOLearner.__init__`
(source lines 150-153): empty reward history,
`best_mean_reward = -np.inf`, and `best_policy = deepcopy(self.policy)` —
a second object with the same parameter values as the live policy. -/
def initPerfState {P : Type} (p : P) (θ : ℚ) : PerfState P :=
  { heap := [p, p], policyRef := 0, bestRef := 1, meanRewards := [],
    bestMeanReward := ⊥, reversionThreshold := θ }

/-- An in-place mutation of the parameters of the object currently
referenced by `self.policy`, as performed by the gradient steps of
`update_policy_network`: the heap cell is overwritten, so every reference
to the same object observes the new parameters. -/
def gradientUpdate {P : Type} [Inhabited P] (f : P → P)
    (s : PerfState P) : PerfState P :=
  { s with heap := s.heap.set s.policyRef (f (readPolicy s)) }

/-- The method `PPOLearner._track_performance` (source lines 212-221):
append `mean_reward = np.mean(rewards)` to the history; if it exceeds the
best recorded mean reward, record it and set
`best_policy = deepcopy(policy)` (a fresh heap cell copying the live
policy's parameters); otherwise, if the fractional drop
`(best - mean) / best` exceeds the reversion threshold, execute
`self.policy = self.best_policy` (the live-policy reference is repointed
at the snapshot object — no copy).  The `unbot' 0` extraction is dead
code: the `else` branch requires `mean ≤ best`, so `best` is finite
there. -/
def trackPerformance {P : Type} [Inhabited P] (s : PerfState P)
    (rewards : List ℚ) : PerfState P :=
  let mean := npMean rewards
  let s1 : PerfState P :=
    { s with meanRewards := s.meanRewards ++ [mean] }
  if (mean : WithBot ℚ) > s.bestMeanReward then
    { s1 with
      bestMeanReward := (mean : WithBot ℚ)
      heap := s1.heap ++ [readPolicy s1]
      bestRef := s1.heap.length }
  else
    let b := s.bestMeanReward.unbot' 0
    if (b - mean) / b > s.reversionThreshold then
      { s1 with policyRef := s1.bestRef }
    else
      s1

/-- A synthetic tracking run for the reversion-guard example of the spec:
starting from a fresh learner with reversion threshold `0.2` and policy
parameters `0`, feed the tracker one singleton reward batch per listed
mean value. -/
def runOf (means : List (List ℚ)) : PerfState ℚ :=
  means.foldl trackPerformance (initPerfState 0 (1 / 5))

/-! ## Learner construction (`PPOLearner.__init__`) -/

/-- The scalar configuration parameters of `PPOLearner.__init__` (source
lines 87-109).  Python `int` parameters are modelled as `ℤ`, `float`
parameters as `ℚ`; the optional `random_init_box` is modelled by an
`Option` carrying an opaque box value.  The network-architecture
arguments (dimensions, action map, hidden-layer widths) and the
environment are omitted: no verified property depends on them. -/
structure PPOParams where
  randomInitBox : Option Unit
  nStepsPerTrajectory : ℤ
  nTrajectoriesPerBatch : ℤ
  nEpochs : ℤ
  nIterations : ℤ
  learningRate : ℚ
  discount : ℚ
  clippingParam : ℚ
  criticCoefficient : ℚ
  entropyCoefficient : ℚ
  entropyDecay : ℚ
  reversionThreshold : ℚ
  reversionThresholdDecay : ℚ
  minReversionThreshold : ℚ
  seed : ℤ

/-- The attributes stored by `PPOLearner.__init__` that the scalar
parameters determine (source lines 131-152). -/
structure LearnerAttrs where
  nStepsPerTrajectory : ℤ
  nTrajectoriesPerBatch : ℤ
  nEpochs : ℤ
  nIterations : ℤ
  discount : ℚ
  clippingParam : ℚ
  criticCoefficient : ℚ
  entropyCoefficient : ℚ
  entropyDecay : ℚ
  reversionThreshold : ℚ
  reversionThresholdDecay : ℚ
  minReversionThreshold : ℚ
  randomizeInitState : Bool
  meanRewards : List ℚ

/-- The body of `PPOLearner.__init__` (source lines 110-153) as far as the
scalar parameters are concerned.  `Except` models a Python constructor
that can raise.  The only statement of the body that raises on the
modelled scalar domain is the seeding: `np.random.seed(seed)` at line 114
raises `ValueError` unless `0 ≤ seed < 2^32` (for seeds far outside the
64-bit range, `torch.manual_seed` at line 113 would already raise at
construction time).  The body contains no validation, `raise` or `assert`
for any other parameter, so every other parameter combination is stored
verbatim: `randomize_init_state` is set from the presence of
`random_init_box` (lines 145-148) and the reward history starts empty
(line 151). -/
def ppoLearnerInit (p : PPOParams) : Except String LearnerAttrs :=
  if p.seed < 0 ∨ 2 ^ 32 ≤ p.seed then
    Except.error "ValueError: Seed must be between 0 and 2**32 - 1"
  else
    Except.ok
      { nStepsPerTrajectory := p.nStepsPerTrajectory
        nTrajectoriesPerBatch := p.nTrajectoriesPerBatch
        nEpochs := p.nEpochs
        nIterations := p.nIterations
        discount := p.discount
        clippingParam := p.clippingParam
        criticCoefficient := p.criticCoefficient
        entropyCoefficient := p.entropyCoefficient
        entropyDecay := p.entropyDecay
        reversionThreshold := p.reversionThreshold
        reversionThresholdDecay := p.reversionThresholdDecay
        minReversionThreshold := p.minReversionThreshold
        randomizeInitState := p.randomInitBox.isSome
        meanRewards := [] }

/-- Whether a modelled Python call returned normally (`ok`) rather than
raising (`error`). -/
def exceptOk {ε α : Type} : Except ε α → Bool
  | .ok _ => true
  | .error _ => false

/-- A configuration that the spec requires construction to reject:
horizon length `0`, batch size `0`, and a negative critic coefficient
(other parameters at their constructor defaults). -/
def invalidParams : PPOParams :=
  { randomInitBox := none
    nStepsPerTrajectory := 0
    nTrajectoriesPerBatch := 0
    nEpochs := 5
    nIterations := 50
    learningRate := 25 / 100000
    discount := 99 / 100
    clippingParam := 1 / 10
    criticCoefficient := -1
    entropyCoefficient := 1 / 10
    entropyDecay := 999 / 1000
    reversionThreshold := 1 / 5
    reversionThresholdDecay := 99 / 100
    minReversionThreshold := 1 / 10
    seed := 0 }

/-! ## PPO loss (`PPOLearner.ppo_loss`)

The tensors of `ppo_loss` are modelled as lists: the `(N, A)` probability
tensors as lists of rows, the `(N, 1)` value / reward / advantage tensors
as flat lists; `torch.mean` over a tensor is the mean over all its
elements (`npMean` of the flattened list).  The transcendental `torch.log`
and `torch.exp` are abstract function parameters, so every identity below
holds for any interpretation of them. -/

/-- One `torch.clamp(x, lo, hi)` element. -/
def clamp (x lo hi : ℚ) : ℚ := min (max x lo) hi

/-- The probability ratio (source line 247):
`exp(log(p + TOL) - log(old + TOL))`, elementwise over the full
probability tensors. -/
def ratioRows (logF expF : ℚ → ℚ) (probs oldProbs : List (List ℚ)) :
    List (List ℚ) :=
  List.zipWith
    (fun row oldRow =>
      List.zipWith (fun p q => expF (logF (p + TOL) - logF (q + TOL)))
        row oldRow)
    probs oldProbs

/-- The clipped-surrogate actor loss (source lines 248-253): the negated
mean over all elements of
`min(clamp(ratio, 1-ε, 1+ε) * advantage, ratio * advantage)`, the
`(N, 1)` advantage column broadcasting across each row. -/
def actorLoss (logF expF : ℚ → ℚ) (clippingParam : ℚ)
    (probs oldProbs : List (List ℚ)) (advantages : List ℚ) : ℚ :=
  -npMean
    (List.zipWith
      (fun row a =>
        row.map (fun r =>
          min (clamp r (1 - clippingParam) (1 + clippingParam) * a) (r * a)))
      (ratioRows logF expF probs oldProbs) advantages).flatten

/-- The critic loss (source line 254): mean squared difference between
discounted rewards and value estimates. -/
def criticLoss (values discountedRewards : List ℚ) : ℚ :=
  npMean (List.zipWith (fun g v => (g - v) ^ 2) discountedRewards values)

/-- The entropy term (source line 255): the mean over the full
probability tensor of `p * log(p + TOL)`. -/
def entropyLoss (logF : ℚ → ℚ) (probs : List (List ℚ)) : ℚ :=
  npMean (probs.flatten.map (fun p => p * logF (p + TOL)))

/-- The method `PPOLearner.ppo_loss` (source lines 239-256): the sum of
the actor loss, the critic loss weighted by the critic coefficient, and
the entropy term weighted by the entropy coefficient. -/
def ppoLoss (logF expF : ℚ → ℚ) (clippingParam criticCoefficient
    entropyCoefficient : ℚ) (values discountedRewards : List ℚ)
    (probs oldProbs : List (List ℚ)) (advantages : List ℚ) : ℚ :=
  actorLoss logF expF clippingParam probs oldProbs advantages +
    criticCoefficient * criticLoss values discountedRewards +
    entropyCoefficient * entropyLoss logF probs

/-- Modelled from the spec: the standard entropy of the probability
tensor, with the same epsilon smoothing and mean aggregation as the
source — `-(mean of p * log(p + ε))` — stated for comparison with the
entropy term the code actually adds. -/
def standardEntropy (logF : ℚ → ℚ) (probs : List (List ℚ)) : ℚ :=
  -npMean (probs.flatten.map (fun p => p * logF (p + TOL)))

/-- C1 (counterexample): with the constructor defaults (decay `0.99`,
pre-update threshold `0.2`, floor `0.1`) one scheduler iteration produces
reversion threshold `0.9801 = 0.99²`, not
`max(0.99² × 0.2, 0.1) = 0.19602` as the claim states. -/
theorem updateHyperparameters_threshold_ne_claimed_formula :
    (updateHyperparameters defaultHyper).reversionThreshold ≠
      max (defaultHyper.reversionThresholdDecay ^ 2 *
        defaultHyper.reversionThreshold) defaultHyper.minReversionThreshold := by
  have h1 : (updateHyperparameters defaultHyper).reversionThreshold =
      9801 / 10000 := by
    show max ((99 : ℚ) / 100 * (99 / 100)) (1 / 10) = 9801 / 10000
    rw [max_eq_left (by norm_num)]
    norm_num
  have h2 : max (defaultHyper.reversionThresholdDecay ^ 2 *
      defaultHyper.reversionThreshold) defaultHyper.minReversionThreshold =
      19602 / 100000 := by
    show max (((99 : ℚ) / 100) ^ 2 * (1 / 5)) (1 / 10) = 19602 / 100000
    rw [max_eq_left (by norm_num)]
    norm_num
  rw [h1, h2]
  norm_num

/-- C1 (amended): for every scheduler iteration, the reversion threshold
after the update equals `max(decay², min_reversion_threshold)` where
`decay` is the fixed `reversion_threshold_decay`; the pre-update threshold
value does not enter the result. -/
theorem updateHyperparameters_threshold_eq (h : Hyper) :
    (updateHyperparameters h).reversionThreshold =
      max (h.reversionThresholdDecay ^ 2) h.minReversionThreshold := by
  simp [updateHyperparameters, sq]

/-- C9: with entropy decay `d ∈ (0,1)` and initial entropy coefficient
`c > 0`, after `N` scheduler iterations the entropy coefficient equals
`c * d ^ N`; the sequence is strictly decreasing and stays positive. -/
theorem entropyCoefficient_after_iterations (h : Hyper)
    (hd0 : 0 < h.entropyDecay) (hd1 : h.entropyDecay < 1)
    (hc : 0 < h.entropyCoefficient) :
    (∀ N : ℕ, (updateHyperparameters^[N] h).entropyCoefficient =
        h.entropyCoefficient * h.entropyDecay ^ N) ∧
    (∀ N : ℕ, (updateHyperparameters^[N + 1] h).entropyCoefficient <
        (updateHyperparameters^[N] h).entropyCoefficient) ∧
    (∀ N : ℕ, 0 < (updateHyperparameters^[N] h).entropyCoefficient) := by
  have hdecay : ∀ N : ℕ, (updateHyperparameters^[N] h).entropyDecay =
      h.entropyDecay := by
    intro N
    induction N with
    | zero => rfl
    | succ n ih => rw [Function.iterate_succ_apply', updateHyperparameters, ih]
  have hval : ∀ N : ℕ, (updateHyperparameters^[N] h).entropyCoefficient =
      h.entropyCoefficient * h.entropyDecay ^ N := by
    intro N
    induction N with
    | zero => simp
    | succ n ih =>
      rw [Function.iterate_succ_apply']
      show (updateHyperparameters^[n] h).entropyDecay *
        (updateHyperparameters^[n] h).entropyCoefficient = _
      rw [hdecay, ih, pow_succ]
      ring
  have hpos : ∀ N : ℕ, 0 < (updateHyperparameters^[N] h).entropyCoefficient := by
    intro N
    rw [hval]
    exact mul_pos hc (pow_pos hd0 N)
  refine ⟨hval, fun N => ?_, hpos⟩
  rw [hval, hval, pow_succ]
  calc h.entropyCoefficient * (h.entropyDecay ^ N * h.entropyDecay)
      < h.entropyCoefficient * (h.entropyDecay ^ N * 1) := by
        have := mul_pos hc (pow_pos hd0 N)
        nlinarith
    _ = h.entropyCoefficient * h.entropyDecay ^ N := by ring

/-- C9 witness: with decay `0.999` and initial coefficient `1e-3`, the
coefficient after 3 iterations is `1e-3 × 0.999³`. -/
theorem entropyCoefficient_after_iterations_witness :
    (updateHyperparameters^[3]
        { defaultHyper with
          entropyCoefficient := 1 / 1000 }).entropyCoefficient =
      (1 / 1000 : ℚ) * (999 / 1000) ^ 3 :=
  (entropyCoefficient_after_iterations
    { defaultHyper with entropyCoefficient := 1 / 1000 }
    (by norm_num [defaultHyper]) (by norm_num [defaultHyper])
    (by norm_num)).1 3

/-! ### Lemmas about `discountedGo` -/

lemma discountedGo_append (γ : ℚ) (r : List ℚ) :
    ∀ (n : ℕ) (d : ℚ) (acc : List ℚ),
      discountedGo γ r n d acc = discountedGo γ r n d [] ++ acc := by
  intro n
  induction n with
  | zero => intro d acc; rfl
  | succ t ih =>
    intro d acc
    show discountedGo γ r t _ (_ :: acc) = discountedGo γ r t _ [_] ++ acc
    rw [ih _ (_ :: acc), ih _ [_]]
    simp

lemma discountedGo_length (γ : ℚ) (r : List ℚ) :
    ∀ (n : ℕ) (d : ℚ), (discountedGo γ r n d []).length = n := by
  intro n
  induction n with
  | zero => intro d; rfl
  | succ t ih =>
    intro d
    show (discountedGo γ r t _ [_]).length = t + 1
    rw [discountedGo_append, List.length_append, ih]
    rfl

lemma discountedGo_getD (γ : ℚ) (r : List ℚ) :
    ∀ (n : ℕ) (d : ℚ) (t : ℕ), t < n →
      (discountedGo γ r n d []).getD t 0 =
        r.getD t 0 + γ *
          (if t + 1 < n then (discountedGo γ r n d []).getD (t + 1) 0 else d) := by
  intro n
  induction n with
  | zero => intro d t ht; omega
  | succ m ih =>
    intro d t ht
    have hrep : discountedGo γ r (m + 1) d [] =
        discountedGo γ r m (r.getD m 0 + γ * d) [] ++ [r.getD m 0 + γ * d] := by
      show discountedGo γ r m _ [_] = _
      rw [discountedGo_append]
    rw [hrep]
    have hlen : (discountedGo γ r m (r.getD m 0 + γ * d) []).length = m :=
      discountedGo_length γ r m _
    rcases Nat.lt_or_ge t m with htm | htm
    · have hA := List.getD_append (discountedGo γ r m (r.getD m 0 + γ * d) [])
        [r.getD m 0 + γ * d] 0 t (by omega)
      rw [hA, if_pos (by omega : t + 1 < m + 1)]
      rcases Nat.lt_or_ge (t + 1) m with ht1 | ht1
      · have hB := List.getD_append (discountedGo γ r m (r.getD m 0 + γ * d) [])
          [r.getD m 0 + γ * d] 0 (t + 1) (by omega)
        rw [hB]
        have h := ih (r.getD m 0 + γ * d) t htm
        rwa [if_pos ht1] at h
      · have hB := List.getD_append_right
          (discountedGo γ r m (r.getD m 0 + γ * d) [])
          [r.getD m 0 + γ * d] 0 (t + 1) (by omega)
        rw [hB]
        have h := ih (r.getD m 0 + γ * d) t htm
        rw [if_neg (by omega)] at h
        have hidx : t + 1 - (discountedGo γ r m (r.getD m 0 + γ * d) []).length =
            0 := by omega
        rw [hidx]
        simpa using h
    · have hA := List.getD_append_right
        (discountedGo γ r m (r.getD m 0 + γ * d) [])
        [r.getD m 0 + γ * d] 0 t (by omega)
      rw [hA, if_neg (by omega)]
      have hidx : t - (discountedGo γ r m (r.getD m 0 + γ * d) []).length = 0 := by
        omega
      have htm' : t = m := by omega
      rw [hidx, htm']
      simp

lemma discountedGo_congr (γ : ℚ) (r r' : List ℚ) :
    ∀ (n : ℕ) (d : ℚ) (acc : List ℚ),
      (∀ t, t < n → r.getD t 0 = r'.getD t 0) →
      discountedGo γ r n d acc = discountedGo γ r' n d acc := by
  intro n
  induction n with
  | zero => intro d acc _; rfl
  | succ m ih =>
    intro d acc hagree
    show discountedGo γ r m (r.getD m 0 + γ * d) _ = _
    rw [hagree m (Nat.lt_succ_self m)]
    exact ih _ _ (fun t ht => hagree t (Nat.lt_succ_of_lt ht))

lemma getD_take_agree (r : List ℚ) (H : ℕ) :
    ∀ t, t < H → r.getD t 0 = (r.take H).getD t 0 := by
  intro t ht
  rcases Nat.lt_or_ge t r.length with hl | hl
  · rw [List.getD_eq_getElem _ _ hl,
      List.getD_eq_getElem _ _ (by simp [List.length_take]; omega),
      List.getElem_take]
  · rw [List.getD_eq_default _ _ hl,
      List.getD_eq_default _ _ (by simp [List.length_take]; omega)]

/-- C4: for every horizon `H ≥ 1` and reward list covering it, the
discounted-return list has length exactly `H`, satisfies
`G_t = r_t + γ·G_{t+1}` for every `t < H` with `G_H` taken to be `0`, and
only the first `H` rewards contribute to the result. -/
theorem calculateDiscountedRewards_spec (γ : ℚ) (H : ℕ) (rewards : List ℚ)
    (hH : 1 ≤ H) (hlen : H ≤ rewards.length) :
    (calculateDiscountedRewards γ H rewards).length = H ∧
    (∀ t, t < H →
      (calculateDiscountedRewards γ H rewards).getD t 0 =
        rewards.getD t 0 + γ *
          (if t + 1 < H
            then (calculateDiscountedRewards γ H rewards).getD (t + 1) 0
            else 0)) ∧
    calculateDiscountedRewards γ H rewards =
      calculateDiscountedRewards γ H (rewards.take H) := by
  refine ⟨discountedGo_length γ rewards H 0,
    fun t ht => discountedGo_getD γ rewards H 0 t ht, ?_⟩
  exact discountedGo_congr γ rewards (rewards.take H) H 0 []
    (getD_take_agree rewards H)

/-- C4 witness: at `γ = 1/2`, `H = 2`, rewards `[1, 2, 3]`, the result
`[2, 2]` has length 2, satisfies the recurrence, and ignores the reward
`3` beyond the horizon. -/
theorem calculateDiscountedRewards_spec_witness :
    (calculateDiscountedRewards (1/2) 2 [1, 2, 3]).length = 2 ∧
    (∀ t, t < 2 →
      (calculateDiscountedRewards (1/2) 2 [1, 2, 3]).getD t 0 =
        ([1, 2, 3] : List ℚ).getD t 0 + (1/2) *
          (if t + 1 < 2
            then (calculateDiscountedRewards (1/2) 2 [1, 2, 3]).getD (t + 1) 0
            else 0)) ∧
    calculateDiscountedRewards (1/2) 2 [1, 2, 3] =
      calculateDiscountedRewards (1/2) 2 (([1, 2, 3] : List ℚ).take 2) :=
  calculateDiscountedRewards_spec (1/2) 2 [1, 2, 3] (by norm_num) (by simp)

/-! ### Lemmas about trajectories and batches -/

lemma trajLoop_lengths {S A R : Type} (stepF : S → A → S × ℚ)
    (sampleAction : R → S → A × R) :
    ∀ (k : ℕ) (s : S) (e : Env S) (rng : R),
      (trajLoop stepF sampleAction k s e rng).states.length = k ∧
      (trajLoop stepF sampleAction k s e rng).rewards.length = k := by
  intro k
  induction k with
  | zero => intro s e rng; exact ⟨rfl, rfl⟩
  | succ m ih =>
    intro s e rng
    have h := ih (envStep stepF e (sampleAction rng s).1).2.1
      (envStep stepF e (sampleAction rng s).1).1 (sampleAction rng s).2
    exact ⟨by simpa [trajLoop] using h.1, by simpa [trajLoop] using h.2⟩

lemma generateTrajectory_lengths {S A R : Type} (stepF : S → A → S × ℚ)
    (sampleAction : R → S → A × R) (sampleBox : R → S × R)
    (randomizeInitState : Bool) (H : ℕ) (γ : ℚ) (e : Env S) (rng : R) :
    (generateTrajectory stepF sampleAction sampleBox randomizeInitState
      H γ e rng).states.length = H ∧
    (generateTrajectory stepF sampleAction sampleBox randomizeInitState
      H γ e rng).rewards.length = H + 1 ∧
    (generateTrajectory stepF sampleAction sampleBox randomizeInitState
      H γ e rng).discountedRewards.length = H := by
  refine ⟨?_, ?_, discountedGo_length γ _ H 0⟩
  · show (trajLoop stepF sampleAction (H + 1) _ _ _).states.dropLast.length = H
    rw [List.length_dropLast, (trajLoop_lengths stepF sampleAction (H + 1) _ _ _).1]
    omega
  · exact (trajLoop_lengths stepF sampleAction (H + 1) _ _ _).2

lemma genTrajectories_length {S A R : Type} (stepF : S → A → S × ℚ)
    (sampleAction : R → S → A × R) (sampleBox : R → S × R)
    (randomizeInitState : Bool) (H : ℕ) (γ : ℚ) :
    ∀ (B : ℕ) (e : Env S) (rng : R),
      (genTrajectories stepF sampleAction sampleBox randomizeInitState
        H γ B e rng).1.length = B := by
  intro B
  induction B with
  | zero => intro e rng; rfl
  | succ b ih =>
    intro e rng
    show ((_ : TrajResult S R) :: _).length = b + 1
    rw [List.length_cons, ih]

lemma genTrajectories_mem {S A R : Type} (stepF : S → A → S × ℚ)
    (sampleAction : R → S → A × R) (sampleBox : R → S × R)
    (randomizeInitState : Bool) (H : ℕ) (γ : ℚ) :
    ∀ (B : ℕ) (e : Env S) (rng : R) (tr : TrajResult S R),
      tr ∈ (genTrajectories stepF sampleAction sampleBox randomizeInitState
        H γ B e rng).1 →
      tr.states.length = H ∧ tr.rewards.length = H + 1 ∧
        tr.discountedRewards.length = H := by
  intro B
  induction B with
  | zero => intro e rng tr h; exact absurd h (List.not_mem_nil tr)
  | succ b ih =>
    intro e rng tr h
    rcases List.mem_cons.1 h with heq | hmem
    · subst heq
      exact generateTrajectory_lengths stepF sampleAction sampleBox
        randomizeInitState H γ e rng
    · exact ih _ _ tr hmem

lemma flatten_length_const {α : Type} (H : ℕ) :
    ∀ L : List (List α), (∀ l ∈ L, l.length = H) →
      L.flatten.length = L.length * H := by
  intro L
  induction L with
  | nil => intro _; simp
  | cons hd tl ih =>
    intro hall
    rw [List.flatten_cons, List.length_append, hall hd (by simp),
      ih (fun l hl => hall l (by simp [hl])), List.length_cons]
    ring

lemma flatten_getD {α : Type} (d : α) (H : ℕ) :
    ∀ (L : List (List α)) (i t : ℕ), (∀ l ∈ L, l.length = H) →
      i < L.length → t < H →
      L.flatten.getD (i * H + t) d = (L.getD i []).getD t d := by
  intro L
  induction L with
  | nil => intro i t _ hi _; simp at hi
  | cons hd tl ih =>
    intro i t hall hi ht
    have hhd : hd.length = H := hall hd (by simp)
    cases i with
    | zero =>
      rw [List.flatten_cons, Nat.zero_mul, Nat.zero_add,
        List.getD_append _ _ _ _ (by omega), List.getD_cons_zero]
    | succ j =>
      have hidx : (j + 1) * H + t = hd.length + (j * H + t) := by
        rw [Nat.succ_mul]; omega
      rw [List.flatten_cons, hidx,
        List.getD_append_right _ _ _ _ (by omega), List.getD_cons_succ]
      have hsub : hd.length + (j * H + t) - hd.length = j * H + t := by omega
      rw [hsub]
      exact ih j t (fun l hl => hall l (by simp [hl]))
        (by simpa using Nat.lt_of_succ_lt_succ hi) ht

/-- C7: the environment's configured initial state after
`generate_trajectory` returns equals its value before the call, whether or
not randomized initialization is configured: the trajectory generator
never permanently mutates `environment.init`. -/
theorem generateTrajectory_preserves_init {S A R : Type}
    (stepF : S → A → S × ℚ) (sampleAction : R → S → A × R)
    (sampleBox : R → S × R) (randomizeInitState : Bool) (H : ℕ) (γ : ℚ)
    (e : Env S) (rng : R) :
    (generateTrajectory stepF sampleAction sampleBox randomizeInitState
      H γ e rng).env.init = e.init :=
  rfl

/-- C5: for a batch of `B` trajectories of horizon `H`, the concatenated
states and discounted-rewards sequences both have length `B×H`, and
element `i×H + t` of each comes from timestep `t` of trajectory `i`. -/
theorem generateBatch_concatenation {S A R : Type}
    (stepF : S → A → S × ℚ) (sampleAction : R → S → A × R)
    (sampleBox : R → S × R) (randomizeInitState : Bool) (H : ℕ) (γ : ℚ)
    (B : ℕ) (e : Env S) (rng : R) (i t : ℕ) (d : S)
    (hi : i < B) (ht : t < H) :
    (generateBatch stepF sampleAction sampleBox randomizeInitState
      H γ B e rng).states.length = B * H ∧
    (generateBatch stepF sampleAction sampleBox randomizeInitState
      H γ B e rng).discountedRewards.length = B * H ∧
    (generateBatch stepF sampleAction sampleBox randomizeInitState
      H γ B e rng).states.getD (i * H + t) d =
      (((genTrajectories stepF sampleAction sampleBox randomizeInitState
        H γ B e rng).1.map TrajResult.states).getD i []).getD t d ∧
    (generateBatch stepF sampleAction sampleBox randomizeInitState
      H γ B e rng).discountedRewards.getD (i * H + t) 0 =
      (((genTrajectories stepF sampleAction sampleBox randomizeInitState
        H γ B e rng).1.map TrajResult.discountedRewards).getD i []).getD
        t 0 := by
  have hmem := genTrajectories_mem stepF sampleAction sampleBox
    randomizeInitState H γ B e rng
  have hlen := genTrajectories_length stepF sampleAction sampleBox
    randomizeInitState H γ B e rng
  have hallS : ∀ l ∈ (genTrajectories stepF sampleAction sampleBox
      randomizeInitState H γ B e rng).1.map TrajResult.states,
      l.length = H := by
    intro l hl
    rcases List.mem_map.1 hl with ⟨tr, htr, rfl⟩
    exact (hmem tr htr).1
  have hallD : ∀ l ∈ (genTrajectories stepF sampleAction sampleBox
      randomizeInitState H γ B e rng).1.map TrajResult.discountedRewards,
      l.length = H := by
    intro l hl
    rcases List.mem_map.1 hl with ⟨tr, htr, rfl⟩
    exact (hmem tr htr).2.2
  refine ⟨?_, ?_, ?_, ?_⟩
  · show ((genTrajectories stepF sampleAction sampleBox randomizeInitState
      H γ B e rng).1.map TrajResult.states).flatten.length = B * H
    rw [flatten_length_const H _ hallS, List.length_map, hlen]
  · show ((genTrajectories stepF sampleAction sampleBox randomizeInitState
      H γ B e rng).1.map TrajResult.discountedRewards).flatten.length = B * H
    rw [flatten_length_const H _ hallD, List.length_map, hlen]
  · exact flatten_getD d H _ i t hallS (by rw [List.length_map, hlen]; exact hi) ht
  · exact flatten_getD 0 H _ i t hallD (by rw [List.length_map, hlen]; exact hi) ht

/-- C5 witness: at a concrete environment over `ℚ` with `B = 2`, `H = 2`,
`i = 1`, `t = 1`, the batch lengths are `4` and element `3` of each
sequence comes from timestep `1` of trajectory `1`. -/
theorem generateBatch_concatenation_witness :
    (generateBatch (fun s a => (s + a, s)) (fun r s => ((1 : ℚ), r + 1))
      (fun r => ((0 : ℚ), r)) false 2 (1/2) 2 ⟨0, 0⟩ (0 : ℕ)).states.length =
      2 * 2 ∧
    (generateBatch (fun s a => (s + a, s)) (fun r s => ((1 : ℚ), r + 1))
      (fun r => ((0 : ℚ), r)) false 2 (1/2) 2 ⟨0, 0⟩
        (0 : ℕ)).discountedRewards.length = 2 * 2 ∧
    (generateBatch (fun s a => (s + a, s)) (fun r s => ((1 : ℚ), r + 1))
      (fun r => ((0 : ℚ), r)) false 2 (1/2) 2 ⟨0, 0⟩ (0 : ℕ)).states.getD
        (1 * 2 + 1) 0 =
      (((genTrajectories (fun s a => (s + a, s))
        (fun r s => ((1 : ℚ), r + 1)) (fun r => ((0 : ℚ), r)) false 2 (1/2)
        2 ⟨0, 0⟩ (0 : ℕ)).1.map TrajResult.states).getD 1 []).getD 1 0 ∧
    (generateBatch (fun s a => (s + a, s)) (fun r s => ((1 : ℚ), r + 1))
      (fun r => ((0 : ℚ), r)) false 2 (1/2) 2 ⟨0, 0⟩
        (0 : ℕ)).discountedRewards.getD (1 * 2 + 1) 0 =
      (((genTrajectories (fun s a => (s + a, s))
        (fun r s => ((1 : ℚ), r + 1)) (fun r => ((0 : ℚ), r)) false 2 (1/2)
        2 ⟨0, 0⟩ (0 : ℕ)).1.map TrajResult.discountedRewards).getD 1
        []).getD 1 0 :=
  generateBatch_concatenation (fun s a => (s + a, s))
    (fun r s => ((1 : ℚ), r + 1)) (fun r => ((0 : ℚ), r)) false 2 (1/2) 2
    ⟨0, 0⟩ (0 : ℕ) 1 1 0 (by omega) (by omega)

/-- C10: a trajectory returns `H + 1` rewards — one more element than its
states and discounted-returns sequences — so a batch of `B` trajectories
carries `B×(H+1)` rewards, the mean recorded by the performance tracker
divides by `B×(H+1)`, and the terminal-step reward of each trajectory
(absent from the training states) is part of the concatenated reward
sequence. -/
theorem generateTrajectory_rewards_offByOne {S A R : Type}
    (stepF : S → A → S × ℚ) (sampleAction : R → S → A × R)
    (sampleBox : R → S × R) (randomizeInitState : Bool) (H : ℕ) (γ : ℚ)
    (B : ℕ) (e : Env S) (rng : R) (i : ℕ) (hi : i < B) :
    (generateTrajectory stepF sampleAction sampleBox randomizeInitState
      H γ e rng).rewards.length = H + 1 ∧
    (generateTrajectory stepF sampleAction sampleBox randomizeInitState
      H γ e rng).states.length = H ∧
    (generateTrajectory stepF sampleAction sampleBox randomizeInitState
      H γ e rng).discountedRewards.length = H ∧
    (generateBatch stepF sampleAction sampleBox randomizeInitState
      H γ B e rng).rewards.length = B * (H + 1) ∧
    npMean (generateBatch stepF sampleAction sampleBox randomizeInitState
      H γ B e rng).rewards =
      (generateBatch stepF sampleAction sampleBox randomizeInitState
        H γ B e rng).rewards.sum / ((B * (H + 1) : ℕ) : ℚ) ∧
    (generateBatch stepF sampleAction sampleBox randomizeInitState
      H γ B e rng).rewards.getD (i * (H + 1) + H) 0 =
      (((genTrajectories stepF sampleAction sampleBox randomizeInitState
        H γ B e rng).1.map TrajResult.rewards).getD i []).getD H 0 := by
  have hmem := genTrajectories_mem stepF sampleAction sampleBox
    randomizeInitState H γ B e rng
  have hlen := genTrajectories_length stepF sampleAction sampleBox
    randomizeInitState H γ B e rng
  have hallR : ∀ l ∈ (genTrajectories stepF sampleAction sampleBox
      randomizeInitState H γ B e rng).1.map TrajResult.rewards,
      l.length = H + 1 := by
    intro l hl
    rcases List.mem_map.1 hl with ⟨tr, htr, rfl⟩
    exact (hmem tr htr).2.1
  have hbatch : (generateBatch stepF sampleAction sampleBox
      randomizeInitState H γ B e rng).rewards.length = B * (H + 1) := by
    show ((genTrajectories stepF sampleAction sampleBox randomizeInitState
      H γ B e rng).1.map TrajResult.rewards).flatten.length = B * (H + 1)
    rw [flatten_length_const (H + 1) _ hallR, List.length_map, hlen]
  have htraj := generateTrajectory_lengths stepF sampleAction sampleBox
    randomizeInitState H γ e rng
  refine ⟨htraj.2.1, htraj.1, htraj.2.2, hbatch, ?_, ?_⟩
  · rw [npMean, hbatch]
  · exact flatten_getD 0 (H + 1) _ i H hallR
      (by rw [List.length_map, hlen]; exact hi) (by omega)

/-- C10 witness: the conclusions at the concrete environment over `ℚ` with
`B = 2`, `H = 2`, `i = 1`. -/
theorem generateTrajectory_rewards_offByOne_witness :
    (generateTrajectory (fun s a => (s + a, s))
      (fun r s => ((1 : ℚ), r + 1)) (fun r => ((0 : ℚ), r)) false 2 (1/2)
      ⟨0, 0⟩ (0 : ℕ)).rewards.length = 2 + 1 ∧
    (generateTrajectory (fun s a => (s + a, s))
      (fun r s => ((1 : ℚ), r + 1)) (fun r => ((0 : ℚ), r)) false 2 (1/2)
      ⟨0, 0⟩ (0 : ℕ)).states.length = 2 ∧
    (generateTrajectory (fun s a => (s + a, s))
      (fun r s => ((1 : ℚ), r + 1)) (fun r => ((0 : ℚ), r)) false 2 (1/2)
      ⟨0, 0⟩ (0 : ℕ)).discountedRewards.length = 2 ∧
    (generateBatch (fun s a => (s + a, s)) (fun r s => ((1 : ℚ), r + 1))
      (fun r => ((0 : ℚ), r)) false 2 (1/2) 2 ⟨0, 0⟩
        (0 : ℕ)).rewards.length = 2 * (2 + 1) ∧
    npMean (generateBatch (fun s a => (s + a, s))
      (fun r s => ((1 : ℚ), r + 1)) (fun r => ((0 : ℚ), r)) false 2 (1/2) 2
      ⟨0, 0⟩ (0 : ℕ)).rewards =
      (generateBatch (fun s a => (s + a, s)) (fun r s => ((1 : ℚ), r + 1))
        (fun r => ((0 : ℚ), r)) false 2 (1/2) 2 ⟨0, 0⟩
          (0 : ℕ)).rewards.sum / ((2 * (2 + 1) : ℕ) : ℚ) ∧
    (generateBatch (fun s a => (s + a, s)) (fun r s => ((1 : ℚ), r + 1))
      (fun r => ((0 : ℚ), r)) false 2 (1/2) 2 ⟨0, 0⟩
        (0 : ℕ)).rewards.getD (1 * (2 + 1) + 2) 0 =
      (((genTrajectories (fun s a => (s + a, s))
        (fun r s => ((1 : ℚ), r + 1)) (fun r => ((0 : ℚ), r)) false 2 (1/2)
        2 ⟨0, 0⟩ (0 : ℕ)).1.map TrajResult.rewards).getD 1 []).getD 2 0 :=
  generateTrajectory_rewards_offByOne (fun s a => (s + a, s))
    (fun r s => ((1 : ℚ), r + 1)) (fun r => ((0 : ℚ), r)) false 2 (1/2) 2
    ⟨0, 0⟩ (0 : ℕ) 1 (by omega)

/-! ### Lemmas about the performance tracker -/

lemma trackPerformance_newBest {P : Type} [Inhabited P] (s : PerfState P)
    (rewards : List ℚ)
    (h : (npMean rewards : WithBot ℚ) > s.bestMeanReward) :
    trackPerformance s rewards =
      { s with
        meanRewards := s.meanRewards ++ [npMean rewards]
        bestMeanReward := (npMean rewards : WithBot ℚ)
        heap := s.heap ++ [readPolicy s]
        bestRef := s.heap.length } := by
  unfold trackPerformance
  rw [if_pos h]
  rfl

lemma trackPerformance_noBest {P : Type} [Inhabited P] (s : PerfState P)
    (rewards : List ℚ) (b : ℚ) (hb : s.bestMeanReward = (b : WithBot ℚ))
    (hle : ¬ npMean rewards > b) :
    trackPerformance s rewards =
      if (b - npMean rewards) / b > s.reversionThreshold then
        { s with
          meanRewards := s.meanRewards ++ [npMean rewards]
          policyRef := s.bestRef }
      else
        { s with meanRewards := s.meanRewards ++ [npMean rewards] } := by
  have hmean : ¬ ((npMean rewards : WithBot ℚ) > s.bestMeanReward) := by
    rw [hb, gt_iff_lt, WithBot.coe_lt_coe]
    exact hle
  unfold trackPerformance
  rw [if_neg hmean, hb, WithBot.unbot'_coe]

lemma readBest_gradientUpdate_ne {P : Type} [Inhabited P] (f : P → P)
    (s : PerfState P) (hne : s.policyRef ≠ s.bestRef) :
    readBest (gradientUpdate f s) = readBest s := by
  show (s.heap.set s.policyRef (f (readPolicy s))).getD s.bestRef default =
    s.heap.getD s.bestRef default
  rw [List.getD_eq_getElem?_getD, List.getD_eq_getElem?_getD,
    List.getElem?_set_ne hne]

lemma npMean_singleton (x : ℚ) : npMean [x] = x := by
  simp [npMean]

lemma runOf_ten :
    runOf [[10]] =
      ⟨[0, 0, 0], 0, 2, [10], ((10 : ℚ) : WithBot ℚ), 1 / 5⟩ := by
  show trackPerformance (initPerfState 0 (1 / 5)) [10] = _
  rw [trackPerformance_newBest _ _ (WithBot.bot_lt_coe _), npMean_singleton]
  rfl

lemma runOf_ten_ten :
    runOf [[10], [10]] =
      ⟨[0, 0, 0], 0, 2, [10, 10], ((10 : ℚ) : WithBot ℚ), 1 / 5⟩ := by
  show trackPerformance (runOf [[10]]) [10] = _
  rw [runOf_ten,
    trackPerformance_noBest _ [10] 10 rfl (by rw [npMean_singleton]; norm_num),
    if_neg (by rw [npMean_singleton]; norm_num), npMean_singleton]
  rfl

lemma runOf_ten_ten_one :
    runOf [[10], [10], [1]] =
      ⟨[0, 0, 0], 2, 2, [10, 10, 1], ((10 : ℚ) : WithBot ℚ), 1 / 5⟩ := by
  show trackPerformance (runOf [[10], [10]]) [1] = _
  rw [runOf_ten_ten,
    trackPerformance_noBest _ [1] 10 rfl (by rw [npMean_singleton]; norm_num),
    if_pos (by rw [npMean_singleton]; norm_num), npMean_singleton]
  rfl

lemma runOf_ten_nine :
    runOf [[10], [9]] =
      ⟨[0, 0, 0], 0, 2, [10, 9], ((10 : ℚ) : WithBot ℚ), 1 / 5⟩ := by
  show trackPerformance (runOf [[10]]) [9] = _
  rw [runOf_ten,
    trackPerformance_noBest _ [9] 10 rfl (by rw [npMean_singleton]; norm_num),
    if_neg (by rw [npMean_singleton]; norm_num), npMean_singleton]
  rfl

lemma aliasChain_track : trackPerformance (initPerfState (5 : ℚ) (1 / 5)) [10] =
    ⟨[5, 5, 5], 0, 2, [10], ((10 : ℚ) : WithBot ℚ), 1 / 5⟩ := by
  rw [trackPerformance_newBest _ _ (WithBot.bot_lt_coe _), npMean_singleton]
  rfl

lemma aliasChain_grad :
    gradientUpdate (fun x => x + 1)
      (⟨[5, 5, 5], 0, 2, [10], ((10 : ℚ) : WithBot ℚ), 1 / 5⟩ : PerfState ℚ) =
      ⟨[6, 5, 5], 0, 2, [10], ((10 : ℚ) : WithBot ℚ), 1 / 5⟩ := by
  show (⟨List.set [5, 5, 5] 0 (List.getD [5, 5, 5] 0 default + 1), 0, 2, [10],
    ((10 : ℚ) : WithBot ℚ), 1 / 5⟩ : PerfState ℚ) = _
  norm_num

lemma aliasChain_revert :
    trackPerformance
      (⟨[6, 5, 5], 0, 2, [10], ((10 : ℚ) : WithBot ℚ), 1 / 5⟩ : PerfState ℚ)
      [1] =
      ⟨[6, 5, 5], 2, 2, [10, 1], ((10 : ℚ) : WithBot ℚ), 1 / 5⟩ := by
  rw [trackPerformance_noBest _ [1] 10 rfl (by rw [npMean_singleton]; norm_num),
    if_pos (by rw [npMean_singleton]; norm_num), npMean_singleton]
  rfl

lemma aliasChain_gradAfter :
    gradientUpdate (fun x => x + 1)
      (⟨[6, 5, 5], 2, 2, [10, 1], ((10 : ℚ) : WithBot ℚ), 1 / 5⟩ : PerfState ℚ) =
      ⟨[6, 5, 6], 2, 2, [10, 1], ((10 : ℚ) : WithBot ℚ), 1 / 5⟩ := by
  show (⟨List.set [6, 5, 5] 2 (List.getD [6, 5, 5] 2 default + 1), 2, 2,
    [10, 1], ((10 : ℚ) : WithBot ℚ), 1 / 5⟩ : PerfState ℚ) = _
  norm_num

/-- C3: with the best mean reward initially `-∞` (so any first batch
records a new best), a batch whose mean strictly exceeds the recorded best
records it and snapshots the current policy into a fresh cell; otherwise
the live policy is repointed at the best-policy snapshot exactly when
`(best - mean) / best` strictly exceeds the current reversion threshold.
On the synthetic mean-reward sequence `[10, 10, 1]` with best `10` and
threshold `0.2`, reversion triggers at the third value and not before; on
`[10, 9]` it never triggers. -/
theorem trackPerformance_branches {P : Type} [Inhabited P]
    (s s0 : PerfState P)
    (rewards0 rewardsHi rewardsRev rewardsStay : List ℚ) (b : ℚ)
    (h0 : s0.bestMeanReward = ⊥)
    (hb : s.bestMeanReward = (b : WithBot ℚ))
    (hhi : npMean rewardsHi > b)
    (hrevle : ¬ npMean rewardsRev > b)
    (hrevgt : (b - npMean rewardsRev) / b > s.reversionThreshold)
    (hstayle : ¬ npMean rewardsStay > b)
    (hstaygt : ¬ (b - npMean rewardsStay) / b > s.reversionThreshold) :
    trackPerformance s0 rewards0 =
      { s0 with
        meanRewards := s0.meanRewards ++ [npMean rewards0]
        bestMeanReward := (npMean rewards0 : WithBot ℚ)
        heap := s0.heap ++ [readPolicy s0]
        bestRef := s0.heap.length } ∧
    trackPerformance s rewardsHi =
      { s with
        meanRewards := s.meanRewards ++ [npMean rewardsHi]
        bestMeanReward := (npMean rewardsHi : WithBot ℚ)
        heap := s.heap ++ [readPolicy s]
        bestRef := s.heap.length } ∧
    trackPerformance s rewardsRev =
      { s with
        meanRewards := s.meanRewards ++ [npMean rewardsRev]
        policyRef := s.bestRef } ∧
    trackPerformance s rewardsStay =
      { s with meanRewards := s.meanRewards ++ [npMean rewardsStay] } ∧
    runOf [[10], [10]] =
      { runOf [[10]] with
        meanRewards := (runOf [[10]]).meanRewards ++ [10] } ∧
    (runOf [[10], [10]]).policyRef ≠ (runOf [[10], [10]]).bestRef ∧
    runOf [[10], [10], [1]] =
      { runOf [[10], [10]] with
        meanRewards := (runOf [[10], [10]]).meanRewards ++ [1]
        policyRef := (runOf [[10], [10]]).bestRef } ∧
    (runOf [[10], [10], [1]]).policyRef = (runOf [[10], [10], [1]]).bestRef ∧
    runOf [[10], [9]] =
      { runOf [[10]] with meanRewards := (runOf [[10]]).meanRewards ++ [9] } := by
  refine ⟨?_, ?_, ?_, ?_, ?_, ?_, ?_, ?_, ?_⟩
  · exact trackPerformance_newBest s0 rewards0
      (by rw [h0]; exact WithBot.bot_lt_coe _)
  · exact trackPerformance_newBest s rewardsHi
      (by rw [gt_iff_lt, hb, WithBot.coe_lt_coe]; exact hhi)
  · rw [trackPerformance_noBest s rewardsRev b hb hrevle, if_pos hrevgt]
  · rw [trackPerformance_noBest s rewardsStay b hb hstayle, if_neg hstaygt]
  · rw [runOf_ten_ten, runOf_ten]
    rfl
  · rw [runOf_ten_ten]
    decide
  · rw [runOf_ten_ten_one, runOf_ten_ten]
    rfl
  · rw [runOf_ten_ten_one]
  · rw [runOf_ten_nine, runOf_ten]
    rfl

/-- C3 witness: at the state with best `10`, threshold `1/5` and a
singleton batch of reward `1`, the fractional drop `0.9` exceeds the
threshold and the tracker repoints the live policy at the snapshot. -/
theorem trackPerformance_branches_witness :
    trackPerformance
      (⟨[0, 0, 0], 0, 2, [10], ((10 : ℚ) : WithBot ℚ), 1 / 5⟩ : PerfState ℚ)
      [1] =
      { (⟨[0, 0, 0], 0, 2, [10], ((10 : ℚ) : WithBot ℚ), 1 / 5⟩ :
          PerfState ℚ) with
        meanRewards :=
          (⟨[0, 0, 0], 0, 2, [10], ((10 : ℚ) : WithBot ℚ), 1 / 5⟩ :
            PerfState ℚ).meanRewards ++ [npMean [1]]
        policyRef :=
          (⟨[0, 0, 0], 0, 2, [10], ((10 : ℚ) : WithBot ℚ), 1 / 5⟩ :
            PerfState ℚ).bestRef } :=
  (trackPerformance_branches
    (⟨[0, 0, 0], 0, 2, [10], ((10 : ℚ) : WithBot ℚ), 1 / 5⟩ : PerfState ℚ)
    (initPerfState (0 : ℚ) (1 / 5)) [10] [11] [1] [9] 10 rfl rfl
    (by rw [npMean_singleton]; norm_num)
    (by rw [npMean_singleton]; norm_num)
    (by rw [npMean_singleton]; norm_num)
    (by rw [npMean_singleton]; norm_num)
    (by rw [npMean_singleton]; norm_num)).2.2.1

/-- C2 (counterexample): after a reversion the live policy and the
best-policy snapshot are the same object, so a subsequent in-place update
of the live policy's parameters changes the snapshot's parameters.  Run:
construct with parameters `5`, record a best (snapshot), update the live
policy in place, then feed mean reward `1` (reversion) and update in
place again — the snapshot's parameters change from `5` to `6`. -/
theorem bestPolicy_alias_counterexample :
    readBest (gradientUpdate (fun x => x + 1)
      (trackPerformance (gradientUpdate (fun x => x + 1)
        (trackPerformance (initPerfState (5 : ℚ) (1 / 5)) [10])) [1])) ≠
      readBest (trackPerformance (gradientUpdate (fun x => x + 1)
        (trackPerformance (initPerfState (5 : ℚ) (1 / 5)) [10])) [1]) := by
  rw [aliasChain_track, aliasChain_grad, aliasChain_revert,
    aliasChain_gradAfter]
  have h1 : readBest
      (⟨[6, 5, 6], 2, 2, [10, 1], ((10 : ℚ) : WithBot ℚ), 1 / 5⟩ :
        PerfState ℚ) = 6 := rfl
  have h2 : readBest
      (⟨[6, 5, 5], 2, 2, [10, 1], ((10 : ℚ) : WithBot ℚ), 1 / 5⟩ :
        PerfState ℚ) = 5 := rfl
  rw [h1, h2]
  norm_num

/-- C2 (amended): the construction and every new-best snapshot leave the
live policy and the best-policy snapshot as two distinct objects, and
while the references are distinct an in-place update of the live policy
leaves the snapshot's parameters unchanged; but a reversion repoints the
live-policy reference at the snapshot object itself, after which an
in-place update of the live policy's parameters also changes the
snapshot's parameters, until the next new-best snapshot. -/
theorem bestPolicy_independence {P : Type} [Inhabited P]
    (s : PerfState P) (f : P → P) (rewardsHi rewardsLo : List ℚ) (b : ℚ)
    (hb : s.bestMeanReward = (b : WithBot ℚ))
    (hhi : npMean rewardsHi > b)
    (hlo : ¬ npMean rewardsLo > b)
    (hrev : (b - npMean rewardsLo) / b > s.reversionThreshold)
    (hpr : s.policyRef < s.heap.length)
    (hbr : s.bestRef < s.heap.length)
    (hne : s.policyRef ≠ s.bestRef) :
    (initPerfState (readPolicy s) s.reversionThreshold).policyRef ≠
      (initPerfState (readPolicy s) s.reversionThreshold).bestRef ∧
    readBest (gradientUpdate f s) = readBest s ∧
    (trackPerformance s rewardsHi).policyRef ≠
      (trackPerformance s rewardsHi).bestRef ∧
    readBest (trackPerformance s rewardsHi) = readPolicy s ∧
    (trackPerformance s rewardsLo).policyRef =
      (trackPerformance s rewardsLo).bestRef ∧
    readBest (gradientUpdate f (trackPerformance s rewardsLo)) =
      f (readBest (trackPerformance s rewardsLo)) := by
  have hsnap := trackPerformance_newBest s rewardsHi
    (by rw [gt_iff_lt, hb, WithBot.coe_lt_coe]; exact hhi)
  have hrevert : trackPerformance s rewardsLo =
      { s with
        meanRewards := s.meanRewards ++ [npMean rewardsLo]
        policyRef := s.bestRef } := by
    rw [trackPerformance_noBest s rewardsLo b hb hlo, if_pos hrev]
  refine ⟨by simp [initPerfState], readBest_gradientUpdate_ne f s hne,
    ?_, ?_, ?_, ?_⟩
  · rw [hsnap]
    show s.policyRef ≠ s.heap.length
    omega
  · rw [hsnap]
    show (s.heap ++ [readPolicy s]).getD s.heap.length default = readPolicy s
    rw [List.getD_append_right _ _ _ _ (le_refl _), Nat.sub_self]
    rfl
  · rw [hrevert]
  · rw [hrevert]
    show (s.heap.set s.bestRef
        (f (s.heap.getD s.bestRef default))).getD s.bestRef default =
      f (s.heap.getD s.bestRef default)
    rw [List.getD_eq_getElem?_getD, List.getElem?_set_eq_of_lt _ hbr]
    rfl

/-- C2 witness: at the concrete state with heap `[6, 5, 5]`, live policy
referencing cell `0`, snapshot referencing cell `2` and best `10`, the
reversion triggered by mean reward `1` aliases the references, and the
subsequent in-place update changes the snapshot's parameters. -/
theorem bestPolicy_independence_witness :
    readBest (gradientUpdate (fun x : ℚ => x + 1)
      (trackPerformance
        (⟨[6, 5, 5], 0, 2, [10], ((10 : ℚ) : WithBot ℚ), 1 / 5⟩ :
          PerfState ℚ) [1])) =
      (fun x : ℚ => x + 1)
        (readBest (trackPerformance
          (⟨[6, 5, 5], 0, 2, [10], ((10 : ℚ) : WithBot ℚ), 1 / 5⟩ :
            PerfState ℚ) [1])) :=
  (bestPolicy_independence
    (⟨[6, 5, 5], 0, 2, [10], ((10 : ℚ) : WithBot ℚ), 1 / 5⟩ : PerfState ℚ)
    (fun x : ℚ => x + 1) [11] [1] 10 rfl
    (by rw [npMean_singleton]; norm_num)
    (by rw [npMean_singleton]; norm_num)
    (by rw [npMean_singleton]; norm_num)
    (by decide) (by decide) (by decide)).2.2.2.2.2

/-- C8 (counterexample): the constructor accepts — returns normally on —
a configuration with horizon length `0 < 1`, batch size `0 < 1` and a
negative critic coefficient, which the claim requires it to reject. -/
theorem ppoLearnerInit_accepts_invalid :
    exceptOk (ppoLearnerInit invalidParams) = true ∧
    invalidParams.nStepsPerTrajectory < 1 ∧
    invalidParams.nTrajectoriesPerBatch < 1 ∧
    invalidParams.criticCoefficient < 0 := by
  refine ⟨?_, by norm_num [invalidParams], by norm_num [invalidParams],
    by norm_num [invalidParams]⟩
  unfold ppoLearnerInit
  rw [if_neg (by norm_num [invalidParams])]
  rfl

/-- C8 (amended): `PPOLearner.__init__` does not validate horizon length,
batch size, or coefficients.  Whenever the seed is accepted by the RNG
seeding of line 114 (`0 ≤ seed < 2^32`) — the only construction-time
failure on the scalar parameters — construction returns normally,
including for horizon length `< 1`, batch size `< 1` and negative
coefficients, and stores the scalar parameter values verbatim. -/
theorem ppoLearnerInit_no_validation (p : PPOParams)
    (h0 : 0 ≤ p.seed) (h1 : p.seed < 2 ^ 32) :
    exceptOk (ppoLearnerInit p) = true ∧
    Except.map LearnerAttrs.nStepsPerTrajectory (ppoLearnerInit p) =
      Except.ok p.nStepsPerTrajectory ∧
    Except.map LearnerAttrs.nTrajectoriesPerBatch (ppoLearnerInit p) =
      Except.ok p.nTrajectoriesPerBatch ∧
    Except.map LearnerAttrs.criticCoefficient (ppoLearnerInit p) =
      Except.ok p.criticCoefficient ∧
    Except.map LearnerAttrs.entropyCoefficient (ppoLearnerInit p) =
      Except.ok p.entropyCoefficient ∧
    Except.map LearnerAttrs.randomizeInitState (ppoLearnerInit p) =
      Except.ok p.randomInitBox.isSome := by
  have hcond : ¬ (p.seed < 0 ∨ 2 ^ 32 ≤ p.seed) := by
    push_neg
    exact ⟨h0, h1⟩
  unfold ppoLearnerInit
  rw [if_neg hcond]
  exact ⟨rfl, rfl, rfl, rfl, rfl, rfl⟩

/-- C8 witness: the configuration with horizon `0`, batch size `0` and
critic coefficient `-1` has seed `0`, within the accepted seed range, and
constructs normally with those values stored verbatim. -/
theorem ppoLearnerInit_no_validation_witness :
    exceptOk (ppoLearnerInit invalidParams) = true ∧
    Except.map LearnerAttrs.nStepsPerTrajectory
        (ppoLearnerInit invalidParams) =
      Except.ok invalidParams.nStepsPerTrajectory ∧
    Except.map LearnerAttrs.nTrajectoriesPerBatch
        (ppoLearnerInit invalidParams) =
      Except.ok invalidParams.nTrajectoriesPerBatch ∧
    Except.map LearnerAttrs.criticCoefficient
        (ppoLearnerInit invalidParams) =
      Except.ok invalidParams.criticCoefficient ∧
    Except.map LearnerAttrs.entropyCoefficient
        (ppoLearnerInit invalidParams) =
      Except.ok invalidParams.entropyCoefficient ∧
    Except.map LearnerAttrs.randomizeInitState
        (ppoLearnerInit invalidParams) =
      Except.ok invalidParams.randomInitBox.isSome :=
  ppoLearnerInit_no_validation invalidParams
    (by norm_num [invalidParams]) (by norm_num [invalidParams])

/-- C6: the entropy term of `ppo_loss` is the mean over the full
probability tensor of `p * log(p + ε)` — the negative of the standard
(epsilon-smoothed, mean-aggregated) entropy — and the total loss adds it
weighted by the entropy coefficient: equivalently, the total loss
subtracts `entropy_coefficient × standard entropy`, not adds it. -/
theorem ppoLoss_entropy_term (logF expF : ℚ → ℚ)
    (clippingParam criticCoefficient entropyCoefficient : ℚ)
    (values discountedRewards : List ℚ) (probs oldProbs : List (List ℚ))
    (advantages : List ℚ) :
    entropyLoss logF probs =
      npMean (probs.flatten.map (fun p => p * logF (p + TOL))) ∧
    entropyLoss logF probs = -standardEntropy logF probs ∧
    ppoLoss logF expF clippingParam criticCoefficient entropyCoefficient
        values discountedRewards probs oldProbs advantages =
      actorLoss logF expF clippingParam probs oldProbs advantages +
        criticCoefficient * criticLoss values discountedRewards +
        entropyCoefficient * entropyLoss logF probs ∧
    ppoLoss logF expF clippingParam criticCoefficient entropyCoefficient
        values discountedRewards probs oldProbs advantages =
      actorLoss logF expF clippingParam probs oldProbs advantages +
        criticCoefficient * criticLoss values discountedRewards -
        entropyCoefficient * standardEntropy logF probs := by
  refine ⟨rfl, by simp [standardEntropy, entropyLoss], rfl, ?_⟩
  simp only [ppoLoss, standardEntropy, entropyLoss]
  ring

end PPO
